import Mathlib

/-!
Shallow embedding of the FileJet repository (src/components/FileJet.tsx,
src/lib/signaling.ts) and proofs about its signaling, session-lifecycle and
chunked-transfer behaviour.

Modelling conventions:
* JavaScript numbers used as byte counts are modelled by `Nat`; the progress
  percentages computed with `/` and `* 100` are modelled by `ℚ` (real
  division; note that in `ℚ` division by zero yields `0`, where JavaScript
  would yield `Infinity`/`NaN` — no theorem below relies on the value of a
  division by zero).
* React `useState` cells and `useRef` handles become fields of explicit state
  records; each event handler becomes a pure state-transition function.
* The Firestore / WebRTC SDKs are external collaborators: only the behaviour
  of the SDK entry points actually invoked by the source is modelled, at
  their documented interface.
-/

namespace FileJet

/-! ## src/lib/signaling.ts -/

/-- `generateId` from signaling.ts:
`Math.floor(100000 + Math.random() * 900000).toString()`.
The argument `r` is the value returned by `Math.random()`, a real number in
`[0, 1)`, modelled as a rational.  The numeric value of the produced id
string is returned. -/
def generateId (r : ℚ) : ℕ :=
  (⌊(100000 : ℚ) + r * 900000⌋).toNat

/-- A Firestore document reference; only its `path` is observable in the
source (`doc(db, 'signaling', sessionId).path`). -/
structure DocRef where
  path : String
deriving DecidableEq

/-- Errors raised by the Firestore SDK entry points used by the source. -/
inductive SdkError where
  | invalidArgument
deriving DecidableEq

/-- The well-formed `doc(db, collection, id)` call: builds the reference
`collection/id`.  (The `db` handle carries no observable state here.) -/
def docRef (collection id : String) : DocRef :=
  ⟨collection ++ "/" ++ id⟩

/-- The SDK contract for `doc` invoked with a single bare path string:
the modular Firestore `doc()` requires a `Firestore` instance or a
reference as its first argument and a non-empty relative path; called as
`doc(somePathString)` its argument validation rejects the call (no overload
matches; at runtime the required `path` argument is absent).  The source's
`cleanupSignalingSession` performs exactly this call. -/
def docFromBarePath (_p : String) : Except SdkError DocRef :=
  .error .invalidArgument

/-- The signaling document created by `createSignalingSession`:
`{ offer, senderCandidates, receiverCandidates, createdAt }`, to which
`respondToSignalingSession` later adds `answer`. -/
structure SignalingDoc where
  offer : Option String
  answer : Option String
  senderCandidates : List String
  receiverCandidates : List String
  createdAt : Nat
deriving DecidableEq

/-- The signaling collection, a map from document paths to documents. -/
def SignalingStore := List (String × SignalingDoc)

/-- `deleteDoc(ref)`: removes the document at `ref.path` if present;
succeeds (and changes nothing) if the document is absent. -/
def deleteDocOp (store : SignalingStore) (ref : DocRef) : SignalingStore :=
  store.filter (fun kv => kv.1 != ref.path)

/-- `cleanupSignalingSession` from signaling.ts, statement for statement:
```
const docRef = doc(doc(db, 'signaling', sessionId).path);
return deleteDoc(doc(db, 'signaling', sessionId));
```
The first statement invokes `doc` with a single bare path string, which the
SDK rejects (see `docFromBarePath`), so the function errors before the
delete is reached. -/
def cleanupSignalingSession (store : SignalingStore) (sessionId : String) :
    Except SdkError SignalingStore := do
  let _docRef ← docFromBarePath (docRef "signaling" sessionId).path
  pure (deleteDocOp store (docRef "signaling" sessionId))

/-! ## Candidate snapshot handlers (FileJet.tsx lines 66–73 and 247–254)

Both snapshot handlers run
`data.<role>Candidates.forEach(candStr => pc.addIceCandidate(parse candStr))`
on every delivered snapshot.  The peer connection is modelled by the list of
candidate strings that have been fed into `addIceCandidate`, in order; the
handlers maintain no record of already-applied candidates. -/

/-- One snapshot delivery: every candidate string in the delivered array is
applied to the peer connection (the `forEach` body; per-candidate failures
are swallowed by the empty `catch`). -/
def applyCandidateSnapshot (applied : List String) (snapshot : List String) :
    List String :=
  applied ++ snapshot

/-- A sequence of snapshot deliveries, processed in order. -/
def applyCandidateSnapshots (applied : List String)
    (snaps : List (List String)) : List String :=
  snaps.foldl applyCandidateSnapshot applied

/-! ## Session state and `cleanup` (FileJet.tsx lines 79–92, 126–128) -/

inductive ConnStatus where
  | disconnected
  | connecting
  | connected
deriving DecidableEq

inductive TransferMode where
  | idle
  | sending
  | receiving
deriving DecidableEq

/-- The component state touched by `cleanup`: the two `useRef` handles
(`dataChannel`, `peerConnection`, present-or-null) and the `useState` cells.
`myId`, `recipientId`, `fileName` and `fileSize` are state cells that
`cleanup` does **not** touch; they are kept so that idempotence is a
statement about the full state. -/
structure SessionState where
  dataChannel : Option Unit
  peerConnection : Option Unit
  connectionStatus : ConnStatus
  transferMode : TransferMode
  progress : ℚ
  receivedFile : Option (List Nat)
  fileName : String
  fileSize : Nat
  myId : String
  recipientId : String

/-- `cleanup` (lines 79–92): closes and nulls the data-channel handle if
present, closes and nulls the peer-connection handle if present (closing an
external handle leaves no trace in this state once the reference is
nulled), then resets status, mode, progress and the received file. -/
def cleanup (s : SessionState) : SessionState :=
  { s with
    dataChannel := none
    peerConnection := none
    connectionStatus := .disconnected
    transferMode := .idle
    progress := 0
    receivedFile := none }

/-- `dc.onclose = () => { cleanup(); }` (lines 126–128). -/
def onDataChannelClose (s : SessionState) : SessionState :=
  cleanup s

/-- The `disconnected`/`failed` branch of `pc.onconnectionstatechange`
(lines 107–110): it calls `cleanup()` (and shows a toast). -/
def onConnectionFailure (s : SessionState) : SessionState :=
  cleanup s

/-! ## Chunked transfer engine (FileJet.tsx lines 117–216)

A file's bytes are modelled as `List Nat`; the chunks yielded by
`file.stream().getReader()` are a list of byte lists whose concatenation is
the file.  Messages on the data channel are distinguished by payload type
(string vs binary); a string payload that `JSON.parse` fails on, or whose
`type` tag is unrecognised, is `malformed`. -/

/-- The percentage arithmetic `(numer / denom) * 100` used by both sides
(`(offset / file.size) * 100`, `(bytesReceived / expectedSize) * 100`). -/
def progressPct (denom numer : Nat) : ℚ :=
  ((numer : ℚ) / (denom : ℚ)) * 100

/-- Data-channel messages: the `metadata` and `eof` control strings, raw
binary chunks, and unparseable control strings. -/
inductive Msg where
  | metadata (name : String) (size : Nat)
  | chunk (data : List Nat)
  | eof
  | malformed
deriving DecidableEq

/-- Receiver-side state: the closure variables of `setupDataChannelEvents`
(`receivedChunks`, `bytesReceived`, `expectedSize`) together with the React
state cells its `onmessage` handler writes.  `reports` records every value
passed to `setProgress`, in order, for the progress claims. -/
structure RecvState where
  fileName : String
  fileSize : Nat
  transferMode : TransferMode
  progress : ℚ
  receivedFile : Option (List Nat)
  receivedChunks : List (List Nat)
  bytesReceived : Nat
  expectedSize : Nat
  reports : List ℚ
deriving DecidableEq

/-- The `dc.onmessage` handler (lines 130–156), one message at a time:
* `metadata`: record name/size, switch to `receiving`, clear the chunk
  buffer, zero `bytesReceived`, report progress 0;
* `eof`: materialise the accumulated chunks into the received file
  (`new Blob(receivedChunks)` = their concatenation), report progress 100;
* a binary payload: append it to the buffer, add its length to
  `bytesReceived`, report `(bytesReceived / expectedSize) * 100` —
  unconditionally, whether or not any `metadata` was seen;
* an unparseable string: logged and ignored. -/
def onMessage (s : RecvState) (m : Msg) : RecvState :=
  match m with
  | .metadata name size =>
      { s with
        fileName := name
        fileSize := size
        expectedSize := size
        transferMode := .receiving
        receivedChunks := []
        bytesReceived := 0
        progress := 0
        reports := s.reports ++ [0] }
  | .eof =>
      { s with
        receivedFile := some s.receivedChunks.flatten
        progress := 100
        reports := s.reports ++ [100] }
  | .chunk data =>
      { s with
        receivedChunks := s.receivedChunks ++ [data]
        bytesReceived := s.bytesReceived + data.length
        progress := progressPct s.expectedSize (s.bytesReceived + data.length)
        reports := s.reports ++
          [progressPct s.expectedSize (s.bytesReceived + data.length)] }
  | .malformed => s

/-- The receiver state when `setupDataChannelEvents` has just installed the
handler: fresh closure variables and the component's initial React state. -/
def initRecvState : RecvState :=
  { fileName := ""
    fileSize := 0
    transferMode := .idle
    progress := 0
    receivedFile := none
    receivedChunks := []
    bytesReceived := 0
    expectedSize := 0
    reports := [] }

/-- Deliver a sequence of messages to the receiver, in order. -/
def runReceiver (s : RecvState) (msgs : List Msg) : RecvState :=
  msgs.foldl onMessage s

/-! ### Sender (`handleSendFile` / `sendNextChunk`, lines 159–216)

`sendNextChunk` is a `while (true)` loop.  Each iteration reads the channel
(open?, `bufferedAmount`, and — after a read that reports `done` — open
again before sending `eof`); these readings form one `SendEvent.iter`
event.  When `bufferedAmount > BUFFER_THRESHOLD` the loop parks itself on
`dc.onbufferedamountlow` and returns; the callback firing is the
`SendEvent.lowWater` event, which clears the callback and re-enters the
loop.  While parked no loop iteration runs, so `iter` events leave a
suspended state unchanged. -/

/-- One observable scheduling event of the send loop. -/
inductive SendEvent where
  | iter (channelOpen : Bool) (bufferedAmount : Nat) (openAtEof : Bool)
  | lowWater
deriving DecidableEq

/-- Sender-side state: the reader's still-unread chunks, the running
`offset`, the progress cell, the loop's control status, and the messages
sent on the channel so far.  `reports` records every `setProgress` value. -/
structure SendState where
  fileSize : Nat
  remaining : List (List Nat)
  offset : Nat
  progress : ℚ
  suspended : Bool
  finished : Bool
  aborted : Bool
  sent : List Msg
  reports : List ℚ
deriving DecidableEq

/-- One iteration of the `sendNextChunk` loop (threshold `th` is the
imported `BUFFER_THRESHOLD`), or one firing of the low-water callback:
* channel not open ⇒ `break` (abort silently);
* `bufferedAmount > BUFFER_THRESHOLD` ⇒ park on the low-water callback;
* reader `done` ⇒ send `eof` (if the channel is still open) and return;
* otherwise send the chunk, advance `offset`, report
  `(offset / file.size) * 100`. -/
def sendStep (th : Nat) (s : SendState) (e : SendEvent) : SendState :=
  if s.finished || s.aborted then s
  else
    match e with
    | .lowWater => if s.suspended then { s with suspended := false } else s
    | .iter channelOpen buffered openAtEof =>
        if s.suspended then s
        else if !channelOpen then { s with aborted := true }
        else if buffered > th then { s with suspended := true }
        else
          match s.remaining with
          | [] =>
              { s with
                sent := if openAtEof then s.sent ++ [Msg.eof] else s.sent
                finished := true }
          | c :: rest =>
              { s with
                sent := s.sent ++ [Msg.chunk c]
                offset := s.offset + c.length
                progress := progressPct s.fileSize (s.offset + c.length)
                remaining := rest
                reports := s.reports ++
                  [progressPct s.fileSize (s.offset + c.length)] }

/-- `handleSendFile` up to the first loop iteration (lines 173–183): with
the channel open, it reports progress 0, sends the `metadata` message
(`size` is `file.size`, the total length of what the reader will yield),
and hands the reader to the loop. -/
def handleSendFile (name : String) (chunks : List (List Nat)) : SendState :=
  { fileSize := chunks.flatten.length
    remaining := chunks
    offset := 0
    progress := 0
    suspended := false
    finished := false
    aborted := false
    sent := [Msg.metadata name chunks.flatten.length]
    reports := [0] }

/-- Drive the send loop through a sequence of scheduling events. -/
def runSendLoop (th : Nat) (s : SendState) (evs : List SendEvent) :
    SendState :=
  evs.foldl (sendStep th) s

/-- A benign schedule: `n` loop iterations on an open channel that never
crosses the buffer threshold. -/
def benignSchedule (n : Nat) : List SendEvent :=
  List.replicate n (SendEvent.iter true 0 true)

/-- The successive `setProgress` values produced while streaming `chunks`
starting from byte offset `off` of a `denom`-byte file. -/
def offsetReports (denom : Nat) (off : Nat) : List (List Nat) → List ℚ
  | [] => []
  | c :: rest =>
      progressPct denom (off + c.length) :: offsetReports denom (off + c.length) rest

/-! ## Theorems: signaling and lifecycle claims -/

/-- C9: for every value `r` of `Math.random()` in `[0, 1)`, `generateId`
produces a number in `[100000, 999999]`, hence a string of exactly 6
decimal digits whose leading digit is never `0`. -/
theorem generateId_six_digits (r : ℚ) (h0 : 0 ≤ r) (h1 : r < 1) :
    100000 ≤ generateId r ∧ generateId r ≤ 999999 ∧
    (Nat.digits 10 (generateId r)).length = 6 ∧
    ∀ d, (Nat.digits 10 (generateId r)).getLast? = some d → d ≠ 0 := by
  have hlow : (100000 : ℤ) ≤ ⌊(100000 : ℚ) + r * 900000⌋ := by
    rw [Int.le_floor]
    push_cast
    nlinarith
  have hhigh : ⌊(100000 : ℚ) + r * 900000⌋ < 1000000 := by
    rw [Int.floor_lt]
    push_cast
    nlinarith
  have hlo : 100000 ≤ generateId r := by
    unfold generateId
    omega
  have hhi : generateId r ≤ 999999 := by
    unfold generateId
    omega
  have hne : generateId r ≠ 0 := by omega
  refine ⟨hlo, hhi, ?_, ?_⟩
  · rw [Nat.digits_len 10 _ (by norm_num) hne]
    have hlog : Nat.log 10 (generateId r) = 5 :=
      Nat.log_eq_of_pow_le_of_lt_pow (by norm_num; omega) (by norm_num; omega)
    omega
  · intro d hd
    have hnil : Nat.digits 10 (generateId r) ≠ [] :=
      Nat.digits_ne_nil_iff_ne_zero.mpr hne
    rw [List.getLast?_eq_getLast _ hnil, Option.some_inj] at hd
    rw [← hd]
    exact Nat.getLast_digit_ne_zero 10 hne

/-- C9 witness: instantiated at `r = 1/2` (so `generateId r = 550000`). -/
theorem generateId_six_digits_witness :
    100000 ≤ generateId (1/2) ∧ generateId (1/2) ≤ 999999 ∧
    (Nat.digits 10 (generateId (1/2))).length = 6 ∧
    ∀ d, (Nat.digits 10 (generateId (1/2))).getLast? = some d → d ≠ 0 :=
  generateId_six_digits (1/2) (by norm_num) (by norm_num)

/-- C8: evaluation of the code at the failing input.  Every invocation of
`cleanupSignalingSession` errors — the stray
`doc(doc(db, 'signaling', sessionId).path)` call is rejected by the SDK's
argument validation before `deleteDoc` runs — so the function is never the
idempotent, error-free delete the claim (and its own doc comment)
describes. -/
theorem cleanupSignalingSession_always_errors
    (store : SignalingStore) (sessionId : String) :
    cleanupSignalingSession store sessionId = .error .invalidArgument :=
  rfl

/-- C1 counterexample: delivering the snapshot `["cand-a"]` twice (a
duplicate change notification) feeds `"cand-a"` into the peer connection
twice, not exactly once as the claim states. -/
theorem candidate_reapplied_counterexample :
    (applyCandidateSnapshots [] [["cand-a"], ["cand-a"]]).count "cand-a" = 2 ∧
    ¬ (applyCandidateSnapshots [] [["cand-a"], ["cand-a"]]).count "cand-a" = 1 := by
  constructor <;> decide

/-- C1 (amended): the handlers keep no applied-candidate record, so every
snapshot delivery re-applies the whole delivered array — the candidates fed
into the connection are exactly the concatenation of all delivered
snapshots (one application per candidate per delivery that contains it). -/
theorem candidates_applied_per_delivery (snaps : List (List String))
    (applied : List String) :
    applyCandidateSnapshots applied snaps = applied ++ snaps.flatten := by
  induction snaps generalizing applied with
  | nil => simp [applyCandidateSnapshots]
  | cons sn rest ih =>
    simp only [applyCandidateSnapshots, List.foldl_cons] at *
    rw [applyCandidateSnapshot, ih (applied ++ sn)]
    simp

/-- C7: `cleanup` is idempotent — a second `cleanup`, and a `cleanup` after
the connection has already reported failed/disconnected (which itself runs
`cleanup`), leaves the session state exactly as a single `cleanup` left it;
being a total function it raises no error. -/
theorem cleanup_idempotent (s : SessionState) :
    cleanup (cleanup s) = cleanup s ∧
    cleanup (onConnectionFailure s) = onConnectionFailure s :=
  ⟨rfl, rfl⟩

/-- C10: the data channel's close event invokes `cleanup`, and `cleanup`
unconditionally discards the received artifact and zeroes the progress —
so after the channel closes the received file is no longer available. -/
theorem close_discards_received_file (s : SessionState) :
    onDataChannelClose s = cleanup s ∧
    (onDataChannelClose s).receivedFile = none ∧
    (onDataChannelClose s).progress = 0 :=
  ⟨rfl, rfl, rfl⟩

/-! ## Helper lemmas for the transfer engine -/

theorem progressPct_zero (denom : Nat) : progressPct denom 0 = 0 := by
  simp [progressPct]

theorem progressPct_mono (denom : Nat) {a b : Nat} (h : a ≤ b) :
    progressPct denom a ≤ progressPct denom b := by
  unfold progressPct
  rcases Nat.eq_zero_or_pos denom with h0 | hp
  · subst h0; simp
  · have hd : (0 : ℚ) < (denom : ℚ) := by exact_mod_cast hp
    have hab : (a : ℚ) ≤ (b : ℚ) := by exact_mod_cast h
    exact mul_le_mul_of_nonneg_right
      ((div_le_div_iff_of_pos_right hd).mpr hab) (by norm_num)

theorem progressPct_le_100 (denom numer : Nat) (h : numer ≤ denom) :
    progressPct denom numer ≤ 100 := by
  unfold progressPct
  rcases Nat.eq_zero_or_pos denom with h0 | hp
  · subst h0
    have : numer = 0 := Nat.le_zero.mp h
    subst this
    norm_num
  · have hd : (0 : ℚ) < (denom : ℚ) := by exact_mod_cast hp
    have h1 : (numer : ℚ) / (denom : ℚ) ≤ 1 := by
      rw [div_le_one hd]
      exact_mod_cast h
    calc ((numer : ℚ) / (denom : ℚ)) * 100 ≤ 1 * 100 :=
          mul_le_mul_of_nonneg_right h1 (by norm_num)
      _ = 100 := one_mul 100

theorem progressPct_full (denom : Nat) (h : denom ≠ 0) :
    progressPct denom denom = 100 := by
  unfold progressPct
  rw [div_self (by exact_mod_cast h)]
  norm_num

theorem offsetReports_chain (denom : Nat) (cs : List (List Nat)) :
    ∀ off : Nat,
      List.Chain' (· ≤ ·)
        (progressPct denom off :: offsetReports denom off cs) := by
  induction cs with
  | nil => intro off; simp [offsetReports]
  | cons c rest ih =>
    intro off
    rw [offsetReports]
    exact List.chain'_cons.mpr
      ⟨progressPct_mono denom (Nat.le_add_right off c.length),
       ih (off + c.length)⟩

theorem offsetReports_getLast (denom : Nat) (cs : List (List Nat)) :
    ∀ off : Nat,
      (progressPct denom off :: offsetReports denom off cs).getLast? =
        some (progressPct denom (off + cs.flatten.length)) := by
  induction cs with
  | nil => intro off; simp [offsetReports]
  | cons c rest ih =>
    intro off
    rw [offsetReports, List.getLast?_cons_cons, ih (off + c.length)]
    simp [Nat.add_assoc]

theorem sendStep_frozen (th : Nat) (s : SendState) (e : SendEvent)
    (hs : s.suspended = true) (he : e ≠ SendEvent.lowWater) :
    sendStep th s e = s := by
  cases e with
  | lowWater => exact absurd rfl he
  | iter a b c => simp [sendStep, hs]

theorem runSendLoop_frozen (th : Nat) (s : SendState) (evs : List SendEvent)
    (hs : s.suspended = true) (hno : ∀ e ∈ evs, e ≠ SendEvent.lowWater) :
    runSendLoop th s evs = s := by
  induction evs with
  | nil => rfl
  | cons e rest ih =>
    show List.foldl (sendStep th) s (e :: rest) = s
    rw [List.foldl_cons, sendStep_frozen th s e hs (hno e (by simp))]
    exact ih (fun x hx => hno x (by simp [hx]))

theorem sendStep_send_eof (th : Nat) (s : SendState)
    (h1 : s.suspended = false) (h2 : s.finished = false)
    (h3 : s.aborted = false) (hr : s.remaining = []) :
    sendStep th s (.iter true 0 true) =
      { s with sent := s.sent ++ [Msg.eof], finished := true } := by
  unfold sendStep
  rw [h2, h3, h1, hr]
  simp

theorem sendStep_send_chunk (th : Nat) (s : SendState) (c : List Nat)
    (rest : List (List Nat))
    (h1 : s.suspended = false) (h2 : s.finished = false)
    (h3 : s.aborted = false) (hr : s.remaining = c :: rest) :
    sendStep th s (.iter true 0 true) =
      { s with
        sent := s.sent ++ [Msg.chunk c]
        offset := s.offset + c.length
        progress := progressPct s.fileSize (s.offset + c.length)
        remaining := rest
        reports := s.reports ++
          [progressPct s.fileSize (s.offset + c.length)] } := by
  unfold sendStep
  rw [h2, h3, h1, hr]
  simp

theorem runSendLoop_benign (th : Nat) (cs : List (List Nat)) :
    ∀ s : SendState, s.suspended = false → s.finished = false →
      s.aborted = false → s.remaining = cs →
      (runSendLoop th s (benignSchedule (cs.length + 1))).sent
          = s.sent ++ cs.map Msg.chunk ++ [Msg.eof] ∧
      (runSendLoop th s (benignSchedule (cs.length + 1))).reports
          = s.reports ++ offsetReports s.fileSize s.offset cs ∧
      (runSendLoop th s (benignSchedule (cs.length + 1))).finished = true := by
  induction cs with
  | nil =>
    intro s h1 h2 h3 hr
    have hone : runSendLoop th s (benignSchedule (([] : List (List Nat)).length + 1)) =
        sendStep th s (.iter true 0 true) := rfl
    rw [hone, sendStep_send_eof th s h1 h2 h3 hr]
    simp [offsetReports]
  | cons c rest ih =>
    intro s h1 h2 h3 hr
    have hcons : runSendLoop th s (benignSchedule ((c :: rest).length + 1)) =
        runSendLoop th (sendStep th s (.iter true 0 true))
          (benignSchedule (rest.length + 1)) := rfl
    have hstep := sendStep_send_chunk th s c rest h1 h2 h3 hr
    have hs' : (sendStep th s (.iter true 0 true)).suspended = false := by
      simp [hstep, h1]
    have hf' : (sendStep th s (.iter true 0 true)).finished = false := by
      simp [hstep, h2]
    have ha' : (sendStep th s (.iter true 0 true)).aborted = false := by
      simp [hstep, h3]
    have hr' : (sendStep th s (.iter true 0 true)).remaining = rest := by
      simp [hstep]
    obtain ⟨ihs, ihr, ihf⟩ := ih _ hs' hf' ha' hr'
    refine ⟨?_, ?_, ?_⟩
    · rw [hcons, ihs, hstep]
      simp
    · rw [hcons, ihr, hstep]
      simp [offsetReports]
    · rw [hcons, ihf]

theorem runReceiver_chunks (cs : List (List Nat)) :
    ∀ s : RecvState,
      (runReceiver s (cs.map Msg.chunk)).receivedChunks
          = s.receivedChunks ++ cs ∧
      (runReceiver s (cs.map Msg.chunk)).receivedFile = s.receivedFile ∧
      (runReceiver s (cs.map Msg.chunk)).reports
          = s.reports ++ offsetReports s.expectedSize s.bytesReceived cs := by
  induction cs with
  | nil => intro s; simp [runReceiver, offsetReports]
  | cons c rest ih =>
    intro s
    have hcons : runReceiver s ((c :: rest).map Msg.chunk) =
        runReceiver (onMessage s (Msg.chunk c)) (rest.map Msg.chunk) := rfl
    rw [hcons]
    obtain ⟨ih1, ih2, ih3⟩ := ih (onMessage s (Msg.chunk c))
    rw [ih1, ih2, ih3]
    refine ⟨by simp [onMessage], rfl, by simp [onMessage, offsetReports]⟩

/-- The receiver's behaviour over one whole well-framed stream:
`metadata`, then the binary chunks, then `eof`. -/
theorem recv_full_stream (name : String) (declared : Nat)
    (cs : List (List Nat)) :
    (runReceiver initRecvState
        ([Msg.metadata name declared] ++ cs.map Msg.chunk ++ [Msg.eof])).receivedFile
        = some cs.flatten ∧
    (runReceiver initRecvState
        ([Msg.metadata name declared] ++ cs.map Msg.chunk ++ [Msg.eof])).reports
        = (0 :: offsetReports declared 0 cs) ++ [100] ∧
    (runReceiver initRecvState
        ([Msg.metadata name declared] ++ cs.map Msg.chunk ++ [Msg.eof])).progress
        = 100 := by
  have hsplit : runReceiver initRecvState
      ([Msg.metadata name declared] ++ cs.map Msg.chunk ++ [Msg.eof]) =
      onMessage (runReceiver (onMessage initRecvState (Msg.metadata name declared))
        (cs.map Msg.chunk)) Msg.eof := by
    simp [runReceiver, List.foldl_append]
  obtain ⟨h1, h2, h3⟩ :=
    runReceiver_chunks cs (onMessage initRecvState (Msg.metadata name declared))
  rw [hsplit]
  refine ⟨?_, ?_, rfl⟩
  · show some (runReceiver (onMessage initRecvState (Msg.metadata name declared))
        (cs.map Msg.chunk)).receivedChunks.flatten = some cs.flatten
    rw [h1]
    rfl
  · show (runReceiver (onMessage initRecvState (Msg.metadata name declared))
        (cs.map Msg.chunk)).reports ++ [100] = (0 :: offsetReports declared 0 cs) ++ [100]
    rw [h3]
    rfl

/-! ## Theorems: chunked-transfer claims -/

/-- C2: for every file (any reader chunking `cs` of its bytes, covering
size 0, 1 byte, one chunk, many chunks plus a remainder) and any buffer
threshold, running the sender to completion and feeding everything it sent
to the receiver reconstructs exactly the original byte sequence between the
`metadata` and `eof` messages. -/
theorem chunk_roundtrip (th : Nat) (name : String) (cs : List (List Nat))
    (bytes : List Nat) (h : cs.flatten = bytes) :
    (runReceiver initRecvState
        ((runSendLoop th (handleSendFile name cs)
          (benignSchedule (cs.length + 1))).sent)).receivedFile
      = some bytes := by
  subst h
  obtain ⟨hsent, -, -⟩ :=
    runSendLoop_benign th cs (handleSendFile name cs) rfl rfl rfl rfl
  rw [hsent]
  exact (recv_full_stream name cs.flatten.length cs).1

/-- C2 witness: concrete transfers of sizes 0, 1, exactly one chunk, and
two chunks plus a remainder. -/
theorem chunk_roundtrip_witness :
    ([[1, 2], [3, 4], [5]] : List (List Nat)).flatten = [1, 2, 3, 4, 5] ∧
    (runReceiver initRecvState
        ((runSendLoop 65535 (handleSendFile "empty.bin" [])
          (benignSchedule 1)).sent)).receivedFile = some [] ∧
    (runReceiver initRecvState
        ((runSendLoop 65535 (handleSendFile "one.bin" [[7]])
          (benignSchedule 2)).sent)).receivedFile = some [7] ∧
    (runReceiver initRecvState
        ((runSendLoop 65535 (handleSendFile "chunk.bin" [[1, 2, 3, 4]])
          (benignSchedule 2)).sent)).receivedFile = some [1, 2, 3, 4] ∧
    (runReceiver initRecvState
        ((runSendLoop 65535 (handleSendFile "rest.bin" [[1, 2], [3, 4], [5]])
          (benignSchedule 4)).sent)).receivedFile = some [1, 2, 3, 4, 5] :=
  ⟨rfl,
   chunk_roundtrip 65535 "empty.bin" [] [] rfl,
   chunk_roundtrip 65535 "one.bin" [[7]] [7] rfl,
   chunk_roundtrip 65535 "chunk.bin" [[1, 2, 3, 4]] [1, 2, 3, 4] rfl,
   chunk_roundtrip 65535 "rest.bin" [[1, 2], [3, 4], [5]] [1, 2, 3, 4, 5] rfl⟩

/-- C3 counterexample: for a zero-byte file the sender does send `eof`,
but its last reported progress is 0, not 100 — the claim's "equals exactly
100 … on both the sending and the receiving side" fails on the sender. -/
theorem sender_progress_at_eof_counterexample :
    (runSendLoop 0 (handleSendFile "zero.bin" []) (benignSchedule 1)).sent.getLast?
        = some Msg.eof ∧
    (runSendLoop 0 (handleSendFile "zero.bin" []) (benignSchedule 1)).reports.getLast?
        = some 0 ∧
    ¬ ((0 : ℚ) = 100) := by
  refine ⟨by decide, by decide, by norm_num⟩

/-- C3 (amended): over one transfer the reported progress is non-decreasing
on both sides; the receiver's progress is exactly 100 when `eof` is
processed; the sender's last reported progress is exactly 100 whenever the
file is non-empty (for a zero-byte file it stays 0, since the sender only
reports progress after sending a chunk). -/
theorem progress_monotone (th : Nat) (name : String) (cs : List (List Nat)) :
    List.Chain' (· ≤ ·)
      (runSendLoop th (handleSendFile name cs)
        (benignSchedule (cs.length + 1))).reports ∧
    List.Chain' (· ≤ ·)
      (runReceiver initRecvState
        (runSendLoop th (handleSendFile name cs)
          (benignSchedule (cs.length + 1))).sent).reports ∧
    (runReceiver initRecvState
        (runSendLoop th (handleSendFile name cs)
          (benignSchedule (cs.length + 1))).sent).progress = 100 ∧
    (runReceiver initRecvState
        (runSendLoop th (handleSendFile name cs)
          (benignSchedule (cs.length + 1))).sent).reports.getLast? = some 100 ∧
    (0 < cs.flatten.length →
      (runSendLoop th (handleSendFile name cs)
        (benignSchedule (cs.length + 1))).reports.getLast? = some 100) := by
  obtain ⟨hsent, hreports, -⟩ :=
    runSendLoop_benign th cs (handleSendFile name cs) rfl rfl rfl rfl
  have hms : (handleSendFile name cs).sent
      = [Msg.metadata name cs.flatten.length] := rfl
  have hrep0 : (runSendLoop th (handleSendFile name cs)
      (benignSchedule (cs.length + 1))).reports
      = 0 :: offsetReports cs.flatten.length 0 cs := by
    rw [hreports]; rfl
  obtain ⟨-, hrrep, hrprog⟩ := recv_full_stream name cs.flatten.length cs
  have hchain : List.Chain' (· ≤ ·)
      ((0 : ℚ) :: offsetReports cs.flatten.length 0 cs) := by
    have h := offsetReports_chain cs.flatten.length cs 0
    rwa [progressPct_zero] at h
  have hlast : ((0 : ℚ) :: offsetReports cs.flatten.length 0 cs).getLast?
      = some (progressPct cs.flatten.length cs.flatten.length) := by
    have h := offsetReports_getLast cs.flatten.length cs 0
    rw [progressPct_zero] at h
    rw [h, Nat.zero_add]
  refine ⟨?_, ?_, ?_, ?_, ?_⟩
  · rw [hrep0]; exact hchain
  · rw [hsent, hms, hrrep]
    refine List.chain'_append.mpr ⟨hchain, List.chain'_singleton _, ?_⟩
    intro x hx y hy
    rw [hlast, Option.mem_def, Option.some_inj] at hx
    simp only [List.head?_cons, Option.mem_def, Option.some_inj] at hy
    rw [← hx, ← hy] at *
    exact progressPct_le_100 _ _ le_rfl
  · rw [hsent]; exact hrprog
  · rw [hsent, hms, hrrep, List.getLast?_concat]
  · intro hpos
    rw [hrep0, hlast, progressPct_full cs.flatten.length (Nat.pos_iff_ne_zero.mp hpos)]

/-- C3 witness: a two-chunk, 3-byte transfer; both chains hold, both sides
end at exactly 100. -/
theorem progress_monotone_witness :
    List.Chain' (· ≤ ·)
      (runSendLoop 7 (handleSendFile "w3.bin" [[1], [2, 3]])
        (benignSchedule 3)).reports ∧
    List.Chain' (· ≤ ·)
      (runReceiver initRecvState
        (runSendLoop 7 (handleSendFile "w3.bin" [[1], [2, 3]])
          (benignSchedule 3)).sent).reports ∧
    (runReceiver initRecvState
        (runSendLoop 7 (handleSendFile "w3.bin" [[1], [2, 3]])
          (benignSchedule 3)).sent).progress = 100 ∧
    (runReceiver initRecvState
        (runSendLoop 7 (handleSendFile "w3.bin" [[1], [2, 3]])
          (benignSchedule 3)).sent).reports.getLast? = some 100 ∧
    (runSendLoop 7 (handleSendFile "w3.bin" [[1], [2, 3]])
        (benignSchedule 3)).reports.getLast? = some 100 :=
  ⟨(progress_monotone 7 "w3.bin" [[1], [2, 3]]).1,
   (progress_monotone 7 "w3.bin" [[1], [2, 3]]).2.1,
   (progress_monotone 7 "w3.bin" [[1], [2, 3]]).2.2.1,
   (progress_monotone 7 "w3.bin" [[1], [2, 3]]).2.2.2.1,
   (progress_monotone 7 "w3.bin" [[1], [2, 3]]).2.2.2.2 (by decide)⟩

/-- C4: backpressure.  (a) Once the loop has parked itself (suspended)
because a pre-send check saw `bufferedAmount > BUFFER_THRESHOLD`, no event
sequence that does not contain the low-water callback can change what has
been sent — the sender never sends while suspended, and stays suspended
until the callback fires.  (b) Whenever a pre-send check on an open channel
sees the buffered amount above the threshold, the loop sends nothing and
becomes suspended. -/
theorem backpressure_suspends_sends (th : Nat) (s : SendState) :
    (∀ evs : List SendEvent, s.suspended = true →
      (∀ e ∈ evs, e ≠ SendEvent.lowWater) →
      (runSendLoop th s evs).sent = s.sent ∧
      (runSendLoop th s evs).suspended = true) ∧
    (∀ buffered openAtEof, s.suspended = false → s.finished = false →
      s.aborted = false → th < buffered →
      sendStep th s (.iter true buffered openAtEof)
        = { s with suspended := true }) := by
  constructor
  · intro evs hs hno
    rw [runSendLoop_frozen th s evs hs hno]
    exact ⟨rfl, hs⟩
  · intro b oe h1 h2 h3 hb
    unfold sendStep
    rw [h2, h3, h1]
    simp [hb]

/-- C4 witness: a concrete suspended state survives two iteration events
unchanged, and a concrete pre-send check over threshold (9 > 5) suspends a
running state. -/
theorem backpressure_suspends_sends_witness :
    ((runSendLoop 5 ⟨3, [[7]], 0, 0, true, false, false, [Msg.metadata "w4.bin" 3], [0]⟩
        [SendEvent.iter true 0 true, SendEvent.iter true 9 true]).sent
        = [Msg.metadata "w4.bin" 3] ∧
      (runSendLoop 5 ⟨3, [[7]], 0, 0, true, false, false, [Msg.metadata "w4.bin" 3], [0]⟩
        [SendEvent.iter true 0 true, SendEvent.iter true 9 true]).suspended = true) ∧
    sendStep 5 ⟨3, [[7]], 0, 0, false, false, false, [Msg.metadata "w4.bin" 3], [0]⟩
        (.iter true 9 true)
      = { (⟨3, [[7]], 0, 0, false, false, false, [Msg.metadata "w4.bin" 3], [0]⟩ : SendState)
          with suspended := true } :=
  ⟨(backpressure_suspends_sends 5 _).1
      [SendEvent.iter true 0 true, SendEvent.iter true 9 true] rfl (by decide),
   (backpressure_suspends_sends 5 _).2 9 true rfl rfl rfl (by decide)⟩

/-- C5 counterexample: the zero-byte transfer does produce exactly
`[metadata, eof]`, but the sender's final reported progress is 0, not the
100 the claim states for the sending side. -/
theorem zero_byte_sender_counterexample :
    (runSendLoop 0 (handleSendFile "z.bin" []) (benignSchedule 1)).sent
        = [Msg.metadata "z.bin" 0, Msg.eof] ∧
    ¬ ((runSendLoop 0 (handleSendFile "z.bin" []) (benignSchedule 1)).progress
        = 100) := by
  refine ⟨by decide, by decide⟩

/-- C5 (amended): a zero-byte transfer sends exactly one `metadata`
message, zero chunk messages and one `eof`; no progress division is ever
performed on either side (the receiver reports only the literal 0 and 100,
the sender only its initial 0); the receiver's final progress is exactly
100 — but the sender's reported progress remains 0, not 100. -/
theorem zero_byte_transfer (th : Nat) (name : String) :
    (runSendLoop th (handleSendFile name []) (benignSchedule 1)).sent
        = [Msg.metadata name 0, Msg.eof] ∧
    (runSendLoop th (handleSendFile name []) (benignSchedule 1)).finished = true ∧
    (runSendLoop th (handleSendFile name []) (benignSchedule 1)).reports = [0] ∧
    (runSendLoop th (handleSendFile name []) (benignSchedule 1)).progress = 0 ∧
    (runReceiver initRecvState [Msg.metadata name 0, Msg.eof]).progress = 100 ∧
    (runReceiver initRecvState [Msg.metadata name 0, Msg.eof]).receivedFile
        = some [] ∧
    (runReceiver initRecvState [Msg.metadata name 0, Msg.eof]).reports
        = [0, 100] := by
  have hone : runSendLoop th (handleSendFile name []) (benignSchedule 1) =
      sendStep th (handleSendFile name []) (.iter true 0 true) := rfl
  rw [hone, sendStep_send_eof th (handleSendFile name []) rfl rfl rfl rfl]
  exact ⟨rfl, rfl, rfl, rfl, rfl, rfl, rfl⟩

/-- C6 counterexample: a binary payload delivered before any `metadata`
message is appended to the receive buffer (and counted into
`bytesReceived`) instead of being rejected. -/
theorem chunk_before_metadata_counterexample :
    (onMessage initRecvState (Msg.chunk [42])).receivedChunks = [[42]] ∧
    (onMessage initRecvState (Msg.chunk [42])).receivedChunks ≠ [] ∧
    (onMessage initRecvState (Msg.chunk [42])).bytesReceived = 1 := by
  refine ⟨by decide, by decide, by decide⟩

/-- C6 (amended): the receiver's binary branch is unconditional — a chunk
arriving before any metadata is accumulated into the buffer and counted
into `bytesReceived` (with progress then computed against the initial
`expectedSize = 0`); the handler is total, defines no `ProtocolError`, and
does not even leave `idle` mode. -/
theorem chunk_before_metadata_accumulated (data : List Nat) :
    (onMessage initRecvState (Msg.chunk data)).receivedChunks = [data] ∧
    (onMessage initRecvState (Msg.chunk data)).bytesReceived = data.length ∧
    (onMessage initRecvState (Msg.chunk data)).transferMode
        = TransferMode.idle := by
  refine ⟨rfl, ?_, rfl⟩
  simp [onMessage, initRecvState]

end FileJet
